import Mathlib

/-!
Shallow embedding of the DSP core of the Xponent123/Audio-player repository
(src/main.rs: 10-band equalizer, biquad filter cascade, equalized sample
source; src/visualizer.rs: FFT spectrum/waveform analyzer).

Floating-point (`f32`) arithmetic is idealized over an arbitrary linear
ordered field `α`; the transcendental primitives the code uses (`cos`, `sin`,
`sqrt`, `log10`, `10.powf`, `π`) are collected in a `Prims` bundle so that
every definition stays computable and theorems can instantiate them with the
real-analytic functions (`Real.cos`, …) or with concrete rational test
functions.  Rust `panic!`/`unwrap` failure is modelled with `Option`/sum
results (`none` = panic).
-/

/-- Bundle of the numeric primitives used by the Rust code (`f32::cos`,
`f32::sin`, `f32::sqrt`, `f32::log10`, `10.0f32.powf`, `std::f32::consts::PI`). -/
structure Prims (α : Type) where
  pi : α
  cos : α → α
  sin : α → α
  sqrt : α → α
  log10 : α → α
  pow10 : α → α

/-- Enum for Equalizer presets (src/main.rs lines 68-78). -/
inductive EqualizerPreset where
  | Flat
  | Classical
  | HipHop
  | Pop
  | Rock
  | HeavyMetal
  | Folk
  | Custom
deriving DecidableEq, Repr

/-- Struct to hold equalizer settings (src/main.rs lines 80-85): a preset and
the per-band gains in dB (`bands`). -/
structure EqualizerSettings (α : Type) where
  preset : EqualizerPreset
  bands : List α
deriving DecidableEq

variable {α : Type} [LinearOrderedField α]

/-- EqualizerSettings::new (src/main.rs lines 88-93): Flat preset, ten 0.0 gains. -/
def EqualizerSettings.new : EqualizerSettings α :=
  { preset := .Flat, bands := List.replicate 10 0 }

/-- EqualizerSettings::apply_preset (src/main.rs lines 96-122): overwrite the
band gains with the fixed table of the current preset; Custom leaves the bands
unchanged. -/
def EqualizerSettings.apply_preset (s : EqualizerSettings α) : EqualizerSettings α :=
  { s with bands :=
      match s.preset with
      | .Flat => List.replicate 10 0
      | .Classical => [-2, -1, 0, 1, 2, 2, 1, 0, -1, -2]
      | .HipHop => [3, 2, 0, -1, -2, -2, -1, 0, 2, 3]
      | .Pop => [1, 3/2, 2, 5/2, 3, 3, 5/2, 2, 3/2, 1]
      | .Rock => [2, 3/2, 1, 0, -1, -1, 0, 1, 3/2, 2]
      | .HeavyMetal => [4, 3, 2, 1, 0, 0, 1, 2, 3, 4]
      | .Folk => [0, 1/2, 1, 3/2, 2, 2, 3/2, 1, 1/2, 0]
      | .Custom => s.bands }

/-- UI operations that mutate an EqualizerSettings value: preset selection
(the ComboBox in draw_equalizer_tab, src/main.rs lines 620-631), an Apply
Preset click (line 633-636), and a per-band slider edit (lines 643-650). -/
inductive EqOp (α : Type) where
  | selectPreset (p : EqualizerPreset)
  | applyPreset
  | setBand (i : ℕ) (v : α)

/-- Run one UI operation on an EqualizerSettings value. A slider edit writes
in place through `iter_mut`, which never changes the vector length; `List.set`
models that (it is the identity when the index is out of range, and the UI
only exposes indices of existing bands). -/
def EqOp.run (s : EqualizerSettings α) : EqOp α → EqualizerSettings α
  | .selectPreset p => { s with preset := p }
  | .applyPreset => s.apply_preset
  | .setBand i v => { s with bands := s.bands.set i v }

/-- Run a sequence of UI operations starting from EqualizerSettings::new(). -/
def runEqOps (ops : List (EqOp α)) : EqualizerSettings α :=
  ops.foldl EqOp.run EqualizerSettings.new

/-- Normalized biquad coefficients as stored by the biquad crate
(`Coefficients { a1, a2, b0, b1, b2 }`, all divided by a0). -/
structure Coefficients (α : Type) where
  a1 : α
  a2 : α
  b0 : α
  b1 : α
  b2 : α
deriving DecidableEq

/-- Hertz::from_hz of the biquad crate: fails (Err) unless the value is a
positive frequency; the Rust code unwraps the result. -/
def Hertz.from_hz (hz : α) : Option α :=
  if 0 < hz then some hz else none

/-- Coefficients::from_params of the biquad crate for Type::PeakingEQ,
following the audio-EQ-cookbook peaking formulas the crate implements
(A = 10^(dbGain/40), ω = 2π f0/fs, α = sin ω / (2Q)), with its two error
checks: the center frequency must be at or below Nyquist (2*f0 ≤ fs) and Q
must be nonnegative. Returns none on error (the Rust caller unwraps). -/
def Coefficients.from_params (P : Prims α) (dbGain fs f0 q : α) : Option (Coefficients α) :=
  if 2 * f0 > fs then none
  else if q < 0 then none
  else
    let A := P.pow10 (dbGain / 40)
    let omega := 2 * P.pi * f0 / fs
    let omega_s := P.sin omega
    let omega_c := P.cos omega
    let alpha := omega_s / (2 * q)
    let b0 := 1 + alpha * A
    let b1 := -(2 * omega_c)
    let b2 := 1 - alpha * A
    let a0 := 1 + alpha / A
    let a1 := -(2 * omega_c)
    let a2 := 1 - alpha / A
    some { a1 := a1 / a0, a2 := a2 / a0, b0 := b0 / a0, b1 := b1 / a0, b2 := b2 / a0 }

/-- DirectForm1 biquad realization of the biquad crate: coefficients plus the
two-sample input/output delay line. -/
structure DirectForm1 (α : Type) where
  coeffs : Coefficients α
  x1 : α
  x2 : α
  y1 : α
  y2 : α
deriving DecidableEq

/-- DirectForm1::new of the biquad crate: zeroed delay line. -/
def DirectForm1.new (c : Coefficients α) : DirectForm1 α :=
  { coeffs := c, x1 := 0, x2 := 0, y1 := 0, y2 := 0 }

/-- Biquad::run of the DirectForm1 realization: one filter step, returning the
output together with the updated delay-line state. -/
def DirectForm1.run (f : DirectForm1 α) (input : α) : α × DirectForm1 α :=
  let out := f.coeffs.b0 * input + f.coeffs.b1 * f.x1 + f.coeffs.b2 * f.x2
      - f.coeffs.a1 * f.y1 - f.coeffs.a2 * f.y2
  (out, { f with x2 := f.x1, x1 := input, y2 := f.y1, y1 := out })

/-- DSP chain using a series of biquad peak filters (src/main.rs lines 124-127). -/
structure EqualizerDSP (α : Type) where
  filters : List (DirectForm1 α)
deriving DecidableEq

/-- Typical 10-band equalizer center frequencies in Hz
(src/main.rs lines 133-136): 31.25, 62.5, 125, 250, 500, 1000, 2000, 4000,
8000, 16000. -/
def center_frequencies : List α :=
  [125/4, 125/2, 125, 250, 500, 1000, 2000, 4000, 8000, 16000]

/-- The loop body of EqualizerDSP::new over the enumerated band gains
(src/main.rs lines 138-150): index into center_frequencies (a Rust Vec index,
which panics when out of bounds), build Hertz values and peaking-EQ
coefficients (each `.unwrap()`ed), and collect a DirectForm1 per band.
`none` models a panic anywhere in the loop. -/
def buildFilters (P : Prims α) (sample_rate : α) :
    List (ℕ × α) → Option (List (DirectForm1 α))
  | [] => some []
  | (i, gain_db) :: rest => do
    let f0 ← (center_frequencies : List α).get? i
    let fs_hz ← Hertz.from_hz sample_rate
    let f0_hz ← Hertz.from_hz f0
    let coef ← Coefficients.from_params P gain_db fs_hz f0_hz 1
    let restFilters ← buildFilters P sample_rate rest
    pure (DirectForm1.new coef :: restFilters)

/-- EqualizerDSP::new (src/main.rs lines 131-152): one peaking filter per band
gain, at the fixed center frequencies, Q = 1.0. `none` models the panic that
the `.unwrap()` calls raise on invalid parameters. -/
def EqualizerDSP.new (P : Prims α) (equalizer_settings : EqualizerSettings α)
    (sample_rate : α) : Option (EqualizerDSP α) := do
  let filters ← buildFilters P sample_rate
    (equalizer_settings.bands.enum)
  pure { filters := filters }

/-- EqualizerDSP::process_sample (src/main.rs lines 155-157): fold the sample
through the filter cascade in order, each filter updating its own delay-line
state. Returns the output sample and the updated chain. -/
def EqualizerDSP.process_sample (d : EqualizerDSP α) (sample : α) : α × EqualizerDSP α :=
  let r := d.filters.foldl
    (fun (acc : α × List (DirectForm1 α)) f =>
      let step := f.run acc.1
      (step.1, acc.2 ++ [step.2]))
    (sample, [])
  (r.1, { filters := r.2 })

/-- Feed a list of samples through an EqualizerDSP instance in order,
collecting the outputs (repeated process_sample calls). -/
def EqualizerDSP.processList (d : EqualizerDSP α) (xs : List α) : List α :=
  (xs.foldl
    (fun (acc : List α × EqualizerDSP α) x =>
      let step := acc.2.process_sample x
      (acc.1 ++ [step.1], step.2))
    ([], d)).1

/-- Custom rodio source that processes samples with the equalizer DSP chain
(src/main.rs lines 161-172): the upstream source (modelled by the list of
samples it has yet to yield), the DSP chain, the shared equalizer settings
cell contents, the sample rate, and the cached change-detection token. -/
structure EqualizedSource (α : Type) where
  inner : List α
  dsp : EqualizerDSP α
  equalizer_settings : EqualizerSettings α
  sample_rate : α
  last_update : ℕ
deriving DecidableEq

/-- Result of one Iterator::next call on EqualizedSource: a panic (from the
unwraps inside the DSP rebuild), upstream exhaustion (None), or a yielded
sample; the latter two carry the post-call state of the source. -/
inductive NextResult (α σ : Type) where
  | panicked
  | exhausted (s : σ)
  | yielded (y : α) (s : σ)
deriving DecidableEq

/-- EqualizedSource::next (src/main.rs lines 179-195): read
`equalizer_settings.bands.len()` as the change token ("Using length as a
simple hash"); if it differs from `last_update`, rebuild the DSP chain from
the shared settings and update `last_update`; then pull one sample from
upstream and process it, or propagate exhaustion. -/
def EqualizedSource.next (P : Prims α) (s : EqualizedSource α) :
    NextResult α (EqualizedSource α) :=
  let current_update := s.equalizer_settings.bands.length
  let rebuilt : Option (EqualizedSource α) :=
    if current_update = s.last_update then some s
    else
      match EqualizerDSP.new P s.equalizer_settings s.sample_rate with
      | none => none
      | some d => some { s with dsp := d, last_update := current_update }
  match rebuilt with
  | none => .panicked
  | some t =>
    match t.inner with
    | [] => .exhausted t
    | x :: rest =>
      let r := t.dsp.process_sample x
      .yielded r.1 { t with inner := rest, dsp := r.2 }

/-- Pull up to `fuel` samples from an EqualizedSource, collecting the yielded
samples in order and returning the final source state; stops at exhaustion or
panic. -/
def EqualizedSource.pullAll (P : Prims α) :
    ℕ → EqualizedSource α → List α × EqualizedSource α
  | 0, s => ([], s)
  | fuel + 1, s =>
    match EqualizedSource.next P s with
    | .yielded y s1 =>
      let r := EqualizedSource.pullAll P fuel s1
      (y :: r.1, r.2)
    | .exhausted s1 => ([], s1)
    | .panicked => ([], s)

/-- Concrete rational test primitives: every transcendental returns 0 except
pow10, which returns 1 (so flat-gain coefficients stay well defined). -/
def prims0 : Prims ℚ :=
  { pi := 0, cos := fun _ => 0, sin := fun _ => 0, sqrt := fun _ => 0,
    log10 := fun _ => 0, pow10 := fun _ => 1 }

/-- Concrete rational test primitives that distinguish band gains: sin is the
constant 1 (so the cookbook alpha is 1/2) and pow10 x = 1 + x (injective on
the small gain/40 inputs), making coefficients differ whenever gains do. -/
def prims1 : Prims ℚ :=
  { pi := 0, cos := fun _ => 0, sin := fun _ => 1, sqrt := fun _ => 0,
    log10 := fun _ => 0, pow10 := fun x => 1 + x }

/-- The Flat settings value (ten 0 dB gains). -/
def flatSettings : EqualizerSettings ℚ := EqualizerSettings.new

/-- The Rock settings value: Rock preset applied to the initial settings. -/
def rockSettings : EqualizerSettings ℚ :=
  EqualizerSettings.apply_preset { preset := .Rock, bands := List.replicate 10 0 }

/-- The DSP chain the player builds for Flat settings at 44100 Hz under the
prims1 test primitives (play_current, src/main.rs lines 337-343). -/
def d1flat : EqualizerDSP ℚ :=
  (EqualizerDSP.new prims1 flatSettings 44100).getD { filters := [] }

/-- The DSP chain a rebuild from the Rock settings at 44100 Hz would produce
under the prims1 test primitives. -/
def d1rock : EqualizerDSP ℚ :=
  (EqualizerDSP.new prims1 rockSettings 44100).getD { filters := [] }

/-- The DSP chain built for Flat settings at 44100 Hz under prims0. -/
def d0flat : EqualizerDSP ℚ :=
  (EqualizerDSP.new prims0 flatSettings 44100).getD { filters := [] }

/-- Constants for visualization (src/visualizer.rs lines 7-9). -/
def SPECTRUM_BUFFER_SIZE : ℕ := 4096

/-- Number of frequency bands to display (src/visualizer.rs line 8). -/
def SPECTRUM_BANDS : ℕ := 64

/-- Number of points to display in waveform (src/visualizer.rs line 9). -/
def WAVEFORM_POINTS : ℕ := 1024

/-- AudioVisualizer state (src/visualizer.rs lines 11-20): the FIFO sample
buffer, the displayed band magnitudes, the downsampled waveform, the peak
levels, the sample rate, the dirty flag, and the per-band peak hold counters
(u8 in the source; the code only ever stores 0..30, so ℕ is faithful). The
FftPlanner field holds no observable state and is omitted. -/
structure AudioVisualizer (α : Type) where
  sample_buffer : List α
  spectrum_data : List α
  waveform_data : List α
  peak_levels : List α
  sample_rate : ℕ
  update_needed : Bool
  peak_hold_frames : List ℕ
deriving DecidableEq

/-- AudioVisualizer::new (src/visualizer.rs lines 23-34). -/
def AudioVisualizer.new (sample_rate : ℕ) : AudioVisualizer α :=
  { sample_buffer := []
    spectrum_data := List.replicate SPECTRUM_BANDS 0
    waveform_data := List.replicate WAVEFORM_POINTS 0
    peak_levels := List.replicate SPECTRUM_BANDS 0
    sample_rate := sample_rate
    update_needed := true
    peak_hold_frames := List.replicate SPECTRUM_BANDS 0 }

/-- AudioVisualizer::add_sample (src/visualizer.rs lines 36-48): evict the
oldest sample when the FIFO is at capacity, push the new one, mark dirty, and
write the sample into the circular waveform buffer at index
`(buffer_len * WAVEFORM_POINTS / SPECTRUM_BUFFER_SIZE) % WAVEFORM_POINTS`
(buffer_len taken after the push), guarded by a bounds check. -/
def AudioVisualizer.add_sample (v : AudioVisualizer α) (sample : α) : AudioVisualizer α :=
  let buf0 := if SPECTRUM_BUFFER_SIZE ≤ v.sample_buffer.length
    then v.sample_buffer.tail else v.sample_buffer
  let buf := buf0 ++ [sample]
  let waveform_idx := buf.length * WAVEFORM_POINTS / SPECTRUM_BUFFER_SIZE % WAVEFORM_POINTS
  { v with
    sample_buffer := buf
    update_needed := true
    waveform_data :=
      if waveform_idx < v.waveform_data.length
      then v.waveform_data.set waveform_idx sample
      else v.waveform_data }

/-- The Hann window factor for index i (src/visualizer.rs line 60):
`0.5 * (1 - cos(2π i / SPECTRUM_BUFFER_SIZE))`. -/
def hannWindow (P : Prims α) (i : ℕ) : α :=
  1/2 * (1 - P.cos (2 * P.pi * (i : α) / (SPECTRUM_BUFFER_SIZE : α)))

/-- Real part of FFT bin k of the windowed input (rustfft forward FFT,
src/visualizer.rs lines 66-70): `Σ_j input j * cos(2π j k / N)` for the
standard unnormalized DFT `X_k = Σ_j x_j e^(-2πi jk/N)` on real input. -/
def dftRe (P : Prims α) (input : ℕ → α) (k : ℕ) : α :=
  ∑ j in Finset.range SPECTRUM_BUFFER_SIZE,
    input j * P.cos (2 * P.pi * ((j * k : ℕ) : α) / (SPECTRUM_BUFFER_SIZE : α))

/-- Imaginary part of FFT bin k of the windowed input:
`-Σ_j input j * sin(2π j k / N)`. -/
def dftIm (P : Prims α) (input : ℕ → α) (k : ℕ) : α :=
  ∑ j in Finset.range SPECTRUM_BUFFER_SIZE,
    -(input j * P.sin (2 * P.pi * ((j * k : ℕ) : α) / (SPECTRUM_BUFFER_SIZE : α)))

/-- Decibel conversion of a bin magnitude as the code computes it
(src/visualizer.rs line 86): `20.0 * magnitude.log10().max(-80.0)` — note the
clamp is applied to log10(magnitude) before the factor 20. At magnitude 0 the
float code has log10(0) = -∞, so the max yields -80 and db = -1600; the zero
case is split off because the idealized log has no -∞. -/
def dbOf (P : Prims α) (magnitude : α) : α :=
  if magnitude = 0 then 20 * (-80) else 20 * max (P.log10 magnitude) (-80)

/-- Normalization of the decibel value to the displayed range
(src/visualizer.rs line 88): `(db + 80) / 80`. -/
def normalizedOf (P : Prims α) (magnitude : α) : α :=
  (dbOf P magnitude + 80) / 80

/-- Modelled from the spec (section 4.5, step 4), for comparison with
`normalizedOf`: "convert to decibels 20·log10(magnitude) clamped at a floor of
−80 dB, normalize to [0,1] via (db + 80) / 80" — i.e. the clamp applies to
the full decibel value 20·log10(magnitude). The magnitude-0 float case
(log10 = -∞) again clamps to -80. -/
def normalizedSpecOf (P : Prims α) (magnitude : α) : α :=
  (max (if magnitude = 0 then 20 * (-80) else 20 * P.log10 magnitude) (-80) + 80) / 80

variable [FloorRing α]

/-- Logarithmic band index of a bin frequency (src/visualizer.rs lines 91-101):
for positive frequencies, `((log10 freq - log10 20) / (log10 nyquist - log10 20)
* (SPECTRUM_BANDS - 1)) as usize`; a Rust float-to-usize cast truncates toward
zero and saturates negative values to 0, which on this range is `Int.toNat ∘
floor`. Frequencies at or below 0 map to band 0. -/
def bandIndexOf (P : Prims α) (nyquist freq : α) : ℕ :=
  if 0 < freq then
    (⌊(P.log10 freq - P.log10 20) / (P.log10 nyquist - P.log10 20) *
      ((SPECTRUM_BANDS : α) - 1)⌋).toNat
  else 0

/-- The bin loop of AudioVisualizer::analyze (src/visualizer.rs lines 77-106):
fold over the first half of the spectrum, computing each bin's magnitude,
normalized decibel value and logarithmic band, and keeping the maximum
normalized value per band (`new_spectrum[band] = max(new_spectrum[band], v)`),
starting from an all-zero band buffer. -/
def newSpectrum (P : Prims α) (nyquist : α) (re im : ℕ → α) : List α :=
  (List.range (SPECTRUM_BUFFER_SIZE / 2)).foldl
    (fun acc i =>
      let magnitude := P.sqrt (re i * re i + im i * im i)
      let normalized := normalizedOf P magnitude
      let bin_size := nyquist / ((SPECTRUM_BUFFER_SIZE : α) / 2)
      let freq := (i : α) * bin_size
      let band_index := bandIndexOf P nyquist freq
      if band_index < SPECTRUM_BANDS
      then acc.set band_index (max (acc.getD band_index 0) normalized)
      else acc)
    (List.replicate SPECTRUM_BANDS 0)

/-- The smoothing / peak-hold loop of AudioVisualizer::analyze
(src/visualizer.rs lines 109-123): blend each band 70% old / 30% new, then
update the peak levels — a new maximum resets the hold counter to 30; while
the counter is positive it only decrements; otherwise the peak decays by 0.01
toward (but never below) the current smoothed value. -/
def updateSpectrumPeaks (v : AudioVisualizer α) (ns : List α) : AudioVisualizer α :=
  let spectrum := (List.range SPECTRUM_BANDS).map
    (fun i => v.spectrum_data.getD i 0 * (7/10) + ns.getD i 0 * (3/10))
  let peaks := (List.range SPECTRUM_BANDS).map
    (fun i =>
      let s := spectrum.getD i 0
      let p := v.peak_levels.getD i 0
      if p < s then s
      else if 0 < v.peak_hold_frames.getD i 0 then p
      else max (p - 1/100) s)
  let holds := (List.range SPECTRUM_BANDS).map
    (fun i =>
      let s := spectrum.getD i 0
      let p := v.peak_levels.getD i 0
      if p < s then 30
      else if 0 < v.peak_hold_frames.getD i 0 then v.peak_hold_frames.getD i 0 - 1
      else v.peak_hold_frames.getD i 0)
  { v with spectrum_data := spectrum, peak_levels := peaks, peak_hold_frames := holds }

/-- AudioVisualizer::analyze (src/visualizer.rs lines 50-126): no-op unless
dirty and the FIFO holds a full window; otherwise Hann-window the buffer, run
the forward FFT, fold the first half of the bins into per-band maxima, run the
smoothing / peak-hold update, and clear the dirty flag. -/
def AudioVisualizer.analyze (P : Prims α) (v : AudioVisualizer α) : AudioVisualizer α :=
  if ¬ v.update_needed ∨ v.sample_buffer.length < SPECTRUM_BUFFER_SIZE then v
  else
    let input : ℕ → α := fun j => v.sample_buffer.getD j 0 * hannWindow P j
    let nyquist := (v.sample_rate : α) / 2
    let ns := newSpectrum P nyquist (dftRe P input) (dftIm P input)
    { updateSpectrumPeaks v ns with update_needed := false }

/-- One externally driven AudioVisualizer operation: an add_sample call (from
the audio path) or an analyze call (from the UI frame loop). -/
inductive VOp (α : Type) where
  | add (x : α)
  | analyze

/-- Run one visualizer operation. -/
def VOp.run (P : Prims α) (v : AudioVisualizer α) : VOp α → AudioVisualizer α
  | .add x => v.add_sample x
  | .analyze => v.analyze P

/-- Run a sequence of visualizer operations from a given state. -/
def runVOpsFrom (P : Prims α) (v : AudioVisualizer α) (ops : List (VOp α)) :
    AudioVisualizer α :=
  ops.foldl (VOp.run P) v

/-- Run a sequence of visualizer operations from the freshly constructed
AudioVisualizer::new state. -/
def runVOps (P : Prims α) (sample_rate : ℕ) (ops : List (VOp α)) : AudioVisualizer α :=
  runVOpsFrom P (AudioVisualizer.new sample_rate) ops

/-- Whether a visualizer operation is an analyze() call. -/
def VOp.isAnalyze : VOp α → Bool
  | .add _ => false
  | .analyze => true

/-- The operation sequence of the C3 counterexample: fill the window with
4096 samples of value 10^6, analyze, add one more sample (re-marking the
analyzer dirty while keeping the window full of the same value), and analyze
again. -/
def c3ops : List (VOp ℝ) :=
  List.replicate 4096 (VOp.add 1000000) ++ [VOp.analyze, VOp.add 1000000, VOp.analyze]

/-- A concrete visualizer state over ℚ whose band-0 peak hold counter was just
reset to 30 (as after an analyze call in which the smoothed magnitude exceeded
the stored peak). -/
def vHold30 : AudioVisualizer ℚ :=
  { sample_buffer := [], spectrum_data := List.replicate 64 0,
    waveform_data := List.replicate 1024 0, peak_levels := List.replicate 64 0,
    sample_rate := 44100, update_needed := true,
    peak_hold_frames := List.replicate 64 30 }

/-- A concrete visualizer state over ℚ with expired hold counters and peaks at
1, used to exercise the decay branch. -/
def vHold0 : AudioVisualizer ℚ :=
  { sample_buffer := [], spectrum_data := List.replicate 64 0,
    waveform_data := List.replicate 1024 0, peak_levels := List.replicate 64 1,
    sample_rate := 44100, update_needed := true,
    peak_hold_frames := List.replicate 64 0 }

/-- getD of a mapped range list evaluates the function at indices below the range. -/
theorem getD_map_range {β : Type} (f : ℕ → β) (d : β) {n i : ℕ} (h : i < n) :
    (((List.range n).map f).getD i d) = f i := by
  simp [List.getD_eq_getElem?_getD, List.getElem?_range h]

/-- getD of a replicate list at an index below the length. -/
theorem getD_replicate {β : Type} (a d : β) {n i : ℕ} (h : i < n) :
    ((List.replicate n a).getD i d) = a := by
  simp [List.getD_eq_getElem?_getD, List.getElem?_replicate_of_lt h]

/-- Folding a step function that never decreases the entry at index b never
decreases the entry at index b. -/
theorem foldl_getD_mono {β : Type} [Preorder β] (step : List β → ℕ → List β) (b : ℕ) (d : β)
    (hstep : ∀ acc i, acc.getD b d ≤ (step acc i).getD b d) :
    ∀ (l : List ℕ) (acc : List β), acc.getD b d ≤ (l.foldl step acc).getD b d := by
  intro l
  induction l with
  | nil => intro acc; exact le_refl _
  | cons i rest ih => intro acc; exact le_trans (hstep acc i) (ih _)

/-- C7 helper: every single UI operation preserves the ten-band shape. -/
theorem EqOp.run_bands_length (s : EqualizerSettings α) (op : EqOp α)
    (h : s.bands.length = 10) : (EqOp.run s op).bands.length = 10 := by
  cases op with
  | selectPreset p => simpa [EqOp.run] using h
  | applyPreset =>
    cases hp : s.preset <;>
      simp [EqOp.run, EqualizerSettings.apply_preset, hp, h]
  | setBand i v => simp [EqOp.run, h]

/-- C7 helper: the ten-band shape is preserved by any operation sequence. -/
theorem foldl_eqops_bands_length (ops : List (EqOp α)) :
    ∀ s : EqualizerSettings α, s.bands.length = 10 →
      (ops.foldl EqOp.run s).bands.length = 10 := by
  induction ops with
  | nil => intro s h; simpa using h
  | cons op rest ih =>
    intro s h
    exact ih _ (EqOp.run_bands_length s op h)

/-- C6: apply_preset with preset Rock overwrites the gains with the fixed Rock
table [2.0, 1.5, 1.0, 0.0, -1.0, -1.0, 0.0, 1.0, 1.5, 2.0] (1.5 = 3/2
exactly), and apply_preset with preset Custom leaves the gains untouched,
whatever they were. -/
theorem c6_rock_and_custom_preset (bands : List α) :
    (EqualizerSettings.apply_preset { preset := .Rock, bands := bands }).bands =
        [2, 3/2, 1, 0, -1, -1, 0, 1, 3/2, 2] ∧
      (EqualizerSettings.apply_preset { preset := .Custom, bands := bands }).bands = bands :=
  ⟨rfl, rfl⟩

/-- C7: starting from EqualizerSettings::new(), any interleaving of preset
selections, apply_preset() calls and per-band gain edits leaves the gains
vector with length exactly 10. -/
theorem c7_band_count_invariant (ops : List (EqOp α)) :
    (runEqOps ops).bands.length = 10 := by
  apply foldl_eqops_bands_length
  simp [EqualizerSettings.new]

/-- C9: cascade determinism — two EqualizerDSP instances freshly constructed
from the same settings and sample rate produce identical output sequences on
identical input sequences; the construction and per-sample processing are pure
functions of their arguments, with no other state. -/
theorem c9_cascade_determinism (P : Prims α) (s : EqualizerSettings α) (sr : α)
    (d1 d2 : EqualizerDSP α) (xs : List α)
    (h1 : EqualizerDSP.new P s sr = some d1) (h2 : EqualizerDSP.new P s sr = some d2) :
    d1.processList xs = d2.processList xs := by
  rw [h1] at h2
  cases h2
  rfl

/-- C10: once the sample buffer holds its full 4096 samples, every add_sample
call computes waveform index (4096 * 1024 / 4096) % 1024 = 0: the buffer
length stays pinned at 4096 and the new sample overwrites waveform_data[0]
(so positions 1..1023 are never written again). -/
theorem c10_waveform_index_pinned (v : AudioVisualizer α) (x : α)
    (hlen : v.sample_buffer.length = SPECTRUM_BUFFER_SIZE)
    (hw : v.waveform_data.length = WAVEFORM_POINTS) :
    (v.add_sample x).sample_buffer.length = SPECTRUM_BUFFER_SIZE ∧
      (v.add_sample x).waveform_data = v.waveform_data.set 0 x := by
  have hlen4096 : v.sample_buffer.length = 4096 := hlen
  have hw1024 : v.waveform_data.length = 1024 := hw
  constructor
  · simp [AudioVisualizer.add_sample, SPECTRUM_BUFFER_SIZE, WAVEFORM_POINTS,
      hlen4096, List.length_tail]
  · simp [AudioVisualizer.add_sample, SPECTRUM_BUFFER_SIZE, WAVEFORM_POINTS,
      hlen4096, hw1024, List.length_tail]

/-- C10 witness: a concrete full buffer (4096 zeros) over ℚ. -/
theorem c10_witness :
    (AudioVisualizer.add_sample
        { sample_buffer := List.replicate 4096 (0:ℚ),
          spectrum_data := List.replicate 64 0,
          waveform_data := List.replicate 1024 0,
          peak_levels := List.replicate 64 0,
          sample_rate := 44100, update_needed := true,
          peak_hold_frames := List.replicate 64 0 } 1).sample_buffer.length =
        SPECTRUM_BUFFER_SIZE ∧
      (AudioVisualizer.add_sample
        { sample_buffer := List.replicate 4096 (0:ℚ),
          spectrum_data := List.replicate 64 0,
          waveform_data := List.replicate 1024 0,
          peak_levels := List.replicate 64 0,
          sample_rate := 44100, update_needed := true,
          peak_hold_frames := List.replicate 64 0 } 1).waveform_data =
        (List.replicate 1024 (0:ℚ)).set 0 1 :=
  c10_waveform_index_pinned _ 1 (by simp only [List.length_replicate, SPECTRUM_BUFFER_SIZE])
    (by simp only [List.length_replicate, WAVEFORM_POINTS])

/-- An Option is some of its own getD whenever it is defined. -/
theorem Option.eq_some_getD {β : Type} {o : Option β} (d : β) (h : o.isSome) :
    o = some (o.getD d) := by
  cases o with
  | none => simp at h
  | some a => rfl

/-- The ten fixed equalizer center frequencies: each exists, is positive, and
sits at or below a 16 kHz Nyquist bound (2 * f ≤ 32000). -/
theorem center_frequencies_spec (i : ℕ) (hi : i < 10) :
    ∃ f0 : α, (center_frequencies : List α)[i]? = some f0 ∧ 0 < f0 ∧ 2 * f0 ≤ 32000 := by
  interval_cases i <;> refine ⟨_, rfl, ?_, ?_⟩ <;> norm_num [center_frequencies]

/-- Filter construction succeeds for every band list whose indices stay below
ten, at any sample rate of at least 32000 Hz. -/
theorem buildFilters_isSome (P : Prims α) (fs : α) (hfs : 32000 ≤ fs) :
    ∀ l : List (ℕ × α), (∀ p ∈ l, p.1 < 10) → (buildFilters P fs l).isSome := by
  intro l
  induction l with
  | nil => intro _; simp [buildFilters]
  | cons hd rest ih =>
    intro hmem
    obtain ⟨i, g⟩ := hd
    obtain ⟨f0, hf0, hf0pos, hf0nyq⟩ :
        ∃ f0 : α, (center_frequencies : List α)[i]? = some f0 ∧ 0 < f0 ∧ 2 * f0 ≤ 32000 :=
      center_frequencies_spec i (hmem (i, g) (by simp))
    have hfs_pos : (0:α) < fs := lt_of_lt_of_le (by norm_num) hfs
    have hrest := ih (fun p hp => hmem p (List.mem_cons_of_mem _ hp))
    obtain ⟨restF, hrestF⟩ := Option.isSome_iff_exists.mp hrest
    have hnyq : ¬ (2 * f0 > fs) := not_lt.mpr (le_trans hf0nyq hfs)
    have hq : ¬ ((1:α) < 0) := by norm_num
    simp [buildFilters, hf0, Hertz.from_hz, hfs_pos, hf0pos,
      Coefficients.from_params, hnyq, hq, hrestF]

/-- EqualizerDSP::new succeeds on every ten-band configuration when the sample
rate is at least 32000 Hz (= twice the highest center frequency). -/
theorem EqualizerDSP.new_isSome (P : Prims α) (s : EqualizerSettings α) (fs : α)
    (h10 : s.bands.length = 10) (hfs : 32000 ≤ fs) :
    (EqualizerDSP.new P s fs).isSome := by
  have h := buildFilters_isSome P fs hfs s.bands.enum ?_
  · obtain ⟨F, hF⟩ := Option.isSome_iff_exists.mp h
    simp [EqualizerDSP.new, hF]
  · intro p hp
    have hg := List.mem_enum_iff_getElem?.mp hp
    have hlt : p.1 < s.bands.length := by
      by_contra hge
      rw [List.getElem?_eq_none (not_lt.mp hge)] at hg
      exact Option.noConfusion hg
    omega

/-- If some band in the list points at a center frequency above the Nyquist
bound of the sample rate, filter construction panics (returns none). -/
theorem buildFilters_none_of_nyquist (P : Prims α) (fs : α) :
    ∀ (l : List (ℕ × α)) (i : ℕ) (g f0 : α), (i, g) ∈ l →
      (center_frequencies : List α)[i]? = some f0 → fs < 2 * f0 →
      buildFilters P fs l = none := by
  intro l
  induction l with
  | nil => intro i g f0 h; simp at h
  | cons hd rest ih =>
    intro i g f0 hmem hget hlt
    obtain ⟨j, gj⟩ := hd
    rcases List.mem_cons.mp hmem with heq | hmem'
    · cases heq
      simp [buildFilters, hget, Hertz.from_hz, Coefficients.from_params, hlt]
    · have hnone := ih i g f0 hmem' hget hlt
      simp [buildFilters, hnone]

/-- C1: the staleness check of EqualizedSource::next misses real configuration
changes. Concretely (over the gain-distinguishing prims1 primitives): the
source was built for the Flat configuration (cached token last_update = 10);
the UI has published the Rock configuration to the shared cell; yet the next
pull compares bands.len() = 10 against last_update = 10, does not rebuild, and
processes the sample with the stale Flat-built DSP chain — whose filters
differ from the chain a rebuild from the Rock configuration would produce.
This contradicts the code comments ("Check if equalizer settings have
changed... If settings changed, rebuild the DSP chain"). -/
theorem c1_stale_dsp_not_rebuilt :
    EqualizedSource.next prims1
        { inner := [1], dsp := d1flat, equalizer_settings := rockSettings,
          sample_rate := 44100, last_update := 10 } =
      NextResult.yielded (d1flat.process_sample 1).1
        { inner := [], dsp := (d1flat.process_sample 1).2,
          equalizer_settings := rockSettings, sample_rate := 44100, last_update := 10 } ∧
    EqualizerDSP.new prims1 rockSettings 44100 = some d1rock ∧
    (d1flat.process_sample 1).2 ≠ d1rock ∧ d1flat ≠ d1rock := by
  refine ⟨?_, ?_, ?_, ?_⟩
  · simp [EqualizedSource.next, rockSettings, EqualizerSettings.apply_preset]
  · exact Option.eq_some_getD _ (EqualizerDSP.new_isSome prims1 rockSettings 44100
      (by simp [rockSettings, EqualizerSettings.apply_preset]) (by norm_num))
  · simp [d1flat, d1rock, EqualizerDSP.new, flatSettings, rockSettings, EqualizerSettings.new,
      EqualizerSettings.apply_preset, buildFilters, center_frequencies, Hertz.from_hz,
      Coefficients.from_params, prims1, DirectForm1.new, EqualizerDSP.process_sample,
      DirectForm1.run]
    norm_num
  · simp [d1flat, d1rock, EqualizerDSP.new, flatSettings, rockSettings, EqualizerSettings.new,
      EqualizerSettings.apply_preset, buildFilters, center_frequencies, Hertz.from_hz,
      Coefficients.from_params, prims1, DirectForm1.new]
    norm_num

/-- C2 counterexample: at the pathological sample rate 1000 Hz (below twice
the 1 kHz and higher center frequencies), EqualizerDSP::new panics — the
embedding returns none, so no DSP chain (and in particular no identity
fallback, and no unfiltered sample) is ever produced; the claim's fall-back
behavior does not exist in the code. Stated over the real-analytic
primitives. -/
theorem c2_pathological_rate_panics :
    EqualizerDSP.new
        { pi := Real.pi, cos := Real.cos, sin := Real.sin, sqrt := Real.sqrt,
          log10 := Real.logb 10, pow10 := fun x => (10:ℝ) ^ x }
        EqualizerSettings.new 1000 = none := by
  have h5 : ((5:ℕ), (0:ℝ)) ∈ (EqualizerSettings.new : EqualizerSettings ℝ).bands.enum := by
    rw [List.mk_mem_enum_iff_getElem?]
    simp [EqualizerSettings.new]
  have hget : (center_frequencies : List ℝ)[5]? = some 1000 := rfl
  have hb := buildFilters_none_of_nyquist
      ({ pi := Real.pi, cos := Real.cos, sin := Real.sin, sqrt := Real.sqrt,
         log10 := Real.logb 10, pow10 := fun x => (10:ℝ) ^ x } : Prims ℝ)
      (1000:ℝ) (EqualizerSettings.new : EqualizerSettings ℝ).bands.enum 5 0 1000 h5 hget
      (by norm_num)
  simp [EqualizerDSP.new, hb]

/-- C2 (amended): FilterBank construction never substitutes identity filters —
it is all-or-nothing. For any ten-band configuration it panics (returns none)
exactly when the sample rate is below 32000 Hz (twice the top 16 kHz center
frequency), and succeeds whenever the sample rate is at least 32000 Hz. -/
theorem c2_panic_not_fallback (P : Prims α) (s : EqualizerSettings α) (fs : α)
    (h10 : s.bands.length = 10) :
    (32000 ≤ fs → (EqualizerDSP.new P s fs).isSome) ∧
      (fs < 32000 → EqualizerDSP.new P s fs = none) := by
  constructor
  · intro hfs
    exact EqualizerDSP.new_isSome P s fs h10 hfs
  · intro hfs
    have h9lt : 9 < s.bands.length := by omega
    have hg : s.bands[9]? = some s.bands[9] := List.getElem?_eq_getElem h9lt
    have h9 : ((9:ℕ), s.bands[9]) ∈ s.bands.enum := List.mk_mem_enum_iff_getElem?.mpr hg
    have hget : (center_frequencies : List α)[9]? = some 16000 := rfl
    have hb := buildFilters_none_of_nyquist P fs _ 9 (s.bands[9]) 16000 h9 hget
      (by rw [show (2:α) * 16000 = 32000 by norm_num]; exact hfs)
    simp [EqualizerDSP.new, hb]

/-- C2 witness: the amended claim instantiated on the Flat configuration at
44100 Hz over the rational test primitives. -/
theorem c2_witness :
    (32000 ≤ (44100:ℚ) → (EqualizerDSP.new prims0 flatSettings 44100).isSome) ∧
      ((44100:ℚ) < 32000 → EqualizerDSP.new prims0 flatSettings 44100 = none) :=
  c2_panic_not_fallback prims0 flatSettings 44100
    (by simp [flatSettings, EqualizerSettings.new])

/-- One next() call on a well-formed source (ten shared bands, sample rate at
least 32000 Hz) never panics: it propagates exhaustion on an empty upstream
and otherwise yields one sample, consuming exactly the upstream head; the
shared settings and the sample rate are left unchanged. -/
theorem EqualizedSource.next_shape (P : Prims α) (s : EqualizedSource α)
    (h10 : s.equalizer_settings.bands.length = 10) (hsr : 32000 ≤ s.sample_rate) :
    (s.inner = [] → ∃ t : EqualizedSource α, EqualizedSource.next P s = .exhausted t ∧
        t.inner = [] ∧ t.equalizer_settings = s.equalizer_settings ∧
        t.sample_rate = s.sample_rate) ∧
    (∀ x rest, s.inner = x :: rest → ∃ y t, EqualizedSource.next P s = .yielded y t ∧
        t.inner = rest ∧ t.equalizer_settings = s.equalizer_settings ∧
        t.sample_rate = s.sample_rate) := by
  constructor
  · intro hinn
    by_cases hcu : s.equalizer_settings.bands.length = s.last_update
    · exact ⟨s, by simp [EqualizedSource.next, hcu, hinn], hinn, rfl, rfl⟩
    · obtain ⟨d, hd⟩ := Option.isSome_iff_exists.mp
        (EqualizerDSP.new_isSome P s.equalizer_settings s.sample_rate h10 hsr)
      exact ⟨{ s with dsp := d, last_update := s.equalizer_settings.bands.length },
        by simp [EqualizedSource.next, hcu, hd, hinn], hinn, rfl, rfl⟩
  · intro x rest hinn
    by_cases hcu : s.equalizer_settings.bands.length = s.last_update
    · exact ⟨(s.dsp.process_sample x).1,
        { s with inner := rest, dsp := (s.dsp.process_sample x).2 },
        by simp [EqualizedSource.next, hcu, hinn], rfl, rfl, rfl⟩
    · obtain ⟨d, hd⟩ := Option.isSome_iff_exists.mp
        (EqualizerDSP.new_isSome P s.equalizer_settings s.sample_rate h10 hsr)
      exact ⟨(d.process_sample x).1,
        { s with inner := rest, dsp := (d.process_sample x).2,
                 last_update := s.equalizer_settings.bands.length },
        by simp [EqualizedSource.next, hcu, hd, hinn], rfl, rfl, rfl⟩

/-- C8: an EqualizedSource over an upstream that yields exactly K samples
yields exactly K filtered samples and then signals exhaustion: with any fuel
n the source emits min n K samples while consuming exactly the first n
upstream samples in order (never fabricating, dropping or reordering), and
once the upstream is exhausted every further next() returns exhaustion. -/
theorem c8_yields_exactly_upstream (P : Prims α) :
    ∀ (n : ℕ) (s : EqualizedSource α),
      s.equalizer_settings.bands.length = 10 → 32000 ≤ s.sample_rate →
      (EqualizedSource.pullAll P n s).1.length = min n s.inner.length ∧
        (EqualizedSource.pullAll P n s).2.inner = s.inner.drop n ∧
        (s.inner.length ≤ n →
          ∃ t, EqualizedSource.next P (EqualizedSource.pullAll P n s).2 =
            .exhausted t) := by
  intro n
  induction n with
  | zero =>
    intro s h10 hsr
    refine ⟨by simp [EqualizedSource.pullAll], by simp [EqualizedSource.pullAll], ?_⟩
    intro hK
    have hinn : s.inner = [] := List.length_eq_zero.mp (Nat.le_zero.mp hK)
    obtain ⟨t, ht, _⟩ := (EqualizedSource.next_shape P s h10 hsr).1 hinn
    exact ⟨t, by simpa [EqualizedSource.pullAll] using ht⟩
  | succ n ih =>
    intro s h10 hsr
    cases hinn : s.inner with
    | nil =>
      obtain ⟨t, ht, htinn, hts, htr⟩ := (EqualizedSource.next_shape P s h10 hsr).1 hinn
      have hp : EqualizedSource.pullAll P (n+1) s = ([], t) := by
        simp [EqualizedSource.pullAll, ht]
      refine ⟨by rw [hp]; simp [hinn], by rw [hp]; simp [htinn, hinn], ?_⟩
      intro _
      obtain ⟨t2, ht2, _⟩ := (EqualizedSource.next_shape P t
        (by rw [hts]; exact h10) (by rw [htr]; exact hsr)).1 htinn
      exact ⟨t2, by rw [hp]; exact ht2⟩
    | cons x rest =>
      obtain ⟨y, t, ht, htinn, hts, htr⟩ :=
        (EqualizedSource.next_shape P s h10 hsr).2 x rest hinn
      obtain ⟨ih1, ih2, ih3⟩ := ih t (by rw [hts]; exact h10) (by rw [htr]; exact hsr)
      have hp : EqualizedSource.pullAll P (n+1) s =
          (y :: (EqualizedSource.pullAll P n t).1, (EqualizedSource.pullAll P n t).2) := by
        simp [EqualizedSource.pullAll, ht]
      refine ⟨?_, ?_, ?_⟩
      · rw [hp]
        simp [hinn, ih1, htinn, Nat.succ_min_succ]
      · rw [hp]
        simp [ih2, htinn, hinn]
      · intro hK
        simp only [List.length_cons] at hK
        obtain ⟨t2, ht2⟩ := ih3 (by rw [htinn]; omega)
        exact ⟨t2, by rw [hp]; exact ht2⟩

/-- C8 witness: a concrete three-sample upstream at 44100 Hz with the Flat
configuration shared, pulled with fuel 5. -/
theorem c8_witness :
    (EqualizedSource.pullAll prims0 5
        { inner := [1, 2, 3], dsp := d0flat, equalizer_settings := flatSettings,
          sample_rate := (44100:ℚ), last_update := 10 }).1.length =
      min 5 ([1, 2, 3] : List ℚ).length ∧
    (EqualizedSource.pullAll prims0 5
        { inner := [1, 2, 3], dsp := d0flat, equalizer_settings := flatSettings,
          sample_rate := (44100:ℚ), last_update := 10 }).2.inner =
      ([1, 2, 3] : List ℚ).drop 5 ∧
    (([1, 2, 3] : List ℚ).length ≤ 5 →
      ∃ t, EqualizedSource.next prims0
          (EqualizedSource.pullAll prims0 5
            { inner := [1, 2, 3], dsp := d0flat, equalizer_settings := flatSettings,
              sample_rate := (44100:ℚ), last_update := 10 }).2 = .exhausted t) :=
  c8_yields_exactly_upstream prims0 5 _
    (by simp [flatSettings, EqualizerSettings.new]) (by norm_num)

/-- C9 witness: the Flat configuration at 44100 Hz under the rational test
primitives; both freshly constructed instances are the same construction, and
the theorem's hypotheses are discharged by the construction success lemma. -/
theorem c9_witness :
    d0flat.processList [1, 0] = d0flat.processList [1, 0] :=
  c9_cascade_determinism prims0 flatSettings 44100 d0flat d0flat [1, 0]
    (Option.eq_some_getD _ (EqualizerDSP.new_isSome prims0 flatSettings 44100
      (by simp [flatSettings, EqualizerSettings.new]) (by norm_num)))
    (Option.eq_some_getD _ (EqualizerDSP.new_isSome prims0 flatSettings 44100
      (by simp [flatSettings, EqualizerSettings.new]) (by norm_num)))

/-- getD of a mapped range list is the default beyond the range. -/
theorem getD_map_range_ge {β : Type} (f : ℕ → β) (d : β) {n i : ℕ} (h : n ≤ i) :
    ((List.range n).map f).getD i d = d := by
  have hnone : ((List.range n).map f)[i]? = none := by
    apply List.getElem?_eq_none
    simpa using h
  simp [List.getD_eq_getElem?_getD, hnone]

/-- Overwriting index t with the max of its current value and anything else
never decreases any getD entry. -/
theorem getD_set_max_le (l : List α) (t b : ℕ) (v : α) :
    l.getD b 0 ≤ (l.set t (max (l.getD t 0) v)).getD b 0 := by
  rcases eq_or_ne t b with rfl | hne
  · by_cases h : t < l.length
    · have hset : (l.set t (max (l.getD t 0) v)).getD t 0 = max (l.getD t 0) v := by
        rw [List.getD_eq_getElem?_getD, List.getElem?_set_self h, Option.getD_some]
      rw [hset]
      exact le_max_left _ _
    · rw [List.set_eq_of_length_le (not_lt.mp h)]
  · simp [List.getD_eq_getElem?_getD, List.getElem?_set_ne hne]

/-- The bin fold of newSpectrum never decreases any band entry. -/
theorem newSpectrum_getD_mono (P : Prims α) (ny : α) (re im : ℕ → α) (b : ℕ)
    (l : List ℕ) (acc : List α) :
    acc.getD b 0 ≤
      (l.foldl
        (fun acc i =>
          let magnitude := P.sqrt (re i * re i + im i * im i)
          let normalized := normalizedOf P magnitude
          let bin_size := ny / ((SPECTRUM_BUFFER_SIZE : α) / 2)
          let freq := (i : α) * bin_size
          let band_index := bandIndexOf P ny freq
          if band_index < SPECTRUM_BANDS
          then acc.set band_index (max (acc.getD band_index 0) normalized)
          else acc)
        acc).getD b 0 := by
  apply foldl_getD_mono
  intro acc i
  simp only
  split_ifs with h
  · exact getD_set_max_le _ _ _ _
  · exact le_refl _

/-- Every entry of newSpectrum is nonnegative: the fold starts from all zeros
and only ever raises entries via max. -/
theorem newSpectrum_getD_nonneg (P : Prims α) (ny : α) (re im : ℕ → α) (b : ℕ) :
    0 ≤ (newSpectrum P ny re im).getD b 0 := by
  have h0 : (List.replicate SPECTRUM_BANDS (0:α)).getD b 0 = 0 := by
    rcases lt_or_ge b SPECTRUM_BANDS with h | h
    · exact getD_replicate _ _ h
    · have hnone : (List.replicate SPECTRUM_BANDS (0:α))[b]? = none := by
        apply List.getElem?_eq_none
        simpa [List.length_replicate] using h
      simp [List.getD_eq_getElem?_getD, hnone]
  have := newSpectrum_getD_mono P ny re im b
    (List.range (SPECTRUM_BUFFER_SIZE / 2)) (List.replicate SPECTRUM_BANDS 0)
  rw [h0] at this
  exact this

/-- The band-wise values of updateSpectrumPeaks below index 64: smoothed
spectrum 70/30 blend, and the three-branch peak / hold-counter updates, read
straight off the loop of src/visualizer.rs lines 109-123. -/
theorem updateSpectrumPeaks_getD (v : AudioVisualizer α) (ns : List α) {b : ℕ}
    (hb : b < SPECTRUM_BANDS) :
    (updateSpectrumPeaks v ns).spectrum_data.getD b 0 =
        v.spectrum_data.getD b 0 * (7/10) + ns.getD b 0 * (3/10) ∧
      (updateSpectrumPeaks v ns).peak_levels.getD b 0 =
        (if v.peak_levels.getD b 0 < (updateSpectrumPeaks v ns).spectrum_data.getD b 0
          then (updateSpectrumPeaks v ns).spectrum_data.getD b 0
          else if 0 < v.peak_hold_frames.getD b 0 then v.peak_levels.getD b 0
          else max (v.peak_levels.getD b 0 - 1/100)
            ((updateSpectrumPeaks v ns).spectrum_data.getD b 0)) ∧
      (updateSpectrumPeaks v ns).peak_hold_frames.getD b 0 =
        (if v.peak_levels.getD b 0 < (updateSpectrumPeaks v ns).spectrum_data.getD b 0
          then 30
          else if 0 < v.peak_hold_frames.getD b 0 then v.peak_hold_frames.getD b 0 - 1
          else v.peak_hold_frames.getD b 0) := by
  have hs : (updateSpectrumPeaks v ns).spectrum_data.getD b 0 =
      v.spectrum_data.getD b 0 * (7/10) + ns.getD b 0 * (3/10) := by
    simp only [updateSpectrumPeaks]
    rw [getD_map_range _ _ hb]
  refine ⟨hs, ?_, ?_⟩
  · simp only [updateSpectrumPeaks]
    rw [getD_map_range _ _ hb]
  · simp only [updateSpectrumPeaks]
    rw [getD_map_range _ _ hb]

/-- The band-wise values of updateSpectrumPeaks at or beyond index 64 are the
getD defaults (the stored lists have length 64). -/
theorem updateSpectrumPeaks_getD_ge (v : AudioVisualizer α) (ns : List α) {b : ℕ}
    (hb : SPECTRUM_BANDS ≤ b) :
    (updateSpectrumPeaks v ns).spectrum_data.getD b 0 = 0 ∧
      (updateSpectrumPeaks v ns).peak_levels.getD b 0 = 0 := by
  constructor <;> simp only [updateSpectrumPeaks] <;> rw [getD_map_range_ge _ _ hb]

/-- The three-way case split of the peak / hold update of updateSpectrumPeaks
at a band below 64: either a new maximum was recorded (peak did not drop, hold
reset to 30), or the hold counter was positive (peak unchanged, hold
decremented), or the hold counter was expired (hold stays 0, decay branch). -/
theorem updSpectrumPeaks_cases (v : AudioVisualizer α) (ns : List α) {b : ℕ}
    (hb : b < SPECTRUM_BANDS) :
    (v.peak_levels.getD b 0 ≤ (updateSpectrumPeaks v ns).peak_levels.getD b 0 ∧
      (updateSpectrumPeaks v ns).peak_hold_frames.getD b 0 = 30) ∨
    (0 < v.peak_hold_frames.getD b 0 ∧
      (updateSpectrumPeaks v ns).peak_levels.getD b 0 = v.peak_levels.getD b 0 ∧
      (updateSpectrumPeaks v ns).peak_hold_frames.getD b 0 =
        v.peak_hold_frames.getD b 0 - 1) ∨
    (v.peak_hold_frames.getD b 0 = 0 ∧
      (updateSpectrumPeaks v ns).peak_hold_frames.getD b 0 = 0) := by
  obtain ⟨hs, hp, hh⟩ := updateSpectrumPeaks_getD v ns hb
  by_cases h1 : v.peak_levels.getD b 0 < (updateSpectrumPeaks v ns).spectrum_data.getD b 0
  · exact Or.inl ⟨by rw [hp, if_pos h1]; exact le_of_lt h1, by rw [hh, if_pos h1]⟩
  · by_cases h2 : 0 < v.peak_hold_frames.getD b 0
    · exact Or.inr (Or.inl ⟨h2, by rw [hp, if_neg h1, if_pos h2],
        by rw [hh, if_neg h1, if_pos h2]⟩)
    · have h0 : v.peak_hold_frames.getD b 0 = 0 := by omega
      exact Or.inr (Or.inr ⟨h0, by rw [hh, if_neg h1, if_neg h2, h0]⟩)

/-- One analyze() call either leaves a band's peak and hold counter unchanged
(the dirty / full-window guard failed), records a new maximum (peak does not
drop, hold reset to 30), decrements a positive hold with the peak unchanged,
or hits the decay branch with an expired (0) hold counter. -/
theorem analyze_peak_hold_cases (P : Prims α) (v : AudioVisualizer α) {b : ℕ}
    (hb : b < SPECTRUM_BANDS) :
    ((v.analyze P).peak_levels.getD b 0 = v.peak_levels.getD b 0 ∧
      (v.analyze P).peak_hold_frames.getD b 0 = v.peak_hold_frames.getD b 0) ∨
    (v.peak_levels.getD b 0 ≤ (v.analyze P).peak_levels.getD b 0 ∧
      (v.analyze P).peak_hold_frames.getD b 0 = 30) ∨
    (0 < v.peak_hold_frames.getD b 0 ∧
      (v.analyze P).peak_levels.getD b 0 = v.peak_levels.getD b 0 ∧
      (v.analyze P).peak_hold_frames.getD b 0 = v.peak_hold_frames.getD b 0 - 1) ∨
    (v.peak_hold_frames.getD b 0 = 0 ∧ (v.analyze P).peak_hold_frames.getD b 0 = 0) := by
  unfold AudioVisualizer.analyze
  split_ifs with hg
  · exact Or.inl ⟨rfl, rfl⟩
  · rcases updSpectrumPeaks_cases v
        (newSpectrum P ((v.sample_rate : α) / 2)
          (dftRe P (fun j => v.sample_buffer.getD j 0 * hannWindow P j))
          (dftIm P (fun j => v.sample_buffer.getD j 0 * hannWindow P j))) hb with
      h | h | h
    · exact Or.inr (Or.inl h)
    · exact Or.inr (Or.inr (Or.inl h))
    · exact Or.inr (Or.inr (Or.inr h))

/-- While at most the hold counter's worth of analyze() calls happen, a band's
peak level never drops below its starting value (the C5 hold invariant). -/
theorem peak_not_below_while_held (P : Prims α) (b : ℕ) (hb : b < SPECTRUM_BANDS) :
    ∀ (ops : List (VOp α)) (v : AudioVisualizer α),
      ops.countP (fun o => o.isAnalyze) ≤ v.peak_hold_frames.getD b 0 →
      v.peak_hold_frames.getD b 0 ≤ 30 →
      v.peak_levels.getD b 0 ≤ (runVOpsFrom P v ops).peak_levels.getD b 0 := by
  intro ops
  induction ops with
  | nil => intro v _ _; exact le_refl _
  | cons op rest ih =>
    intro v h1 h2
    have hrun : runVOpsFrom P v (op :: rest) = runVOpsFrom P (VOp.run P v op) rest := rfl
    rw [hrun]
    cases op with
    | add x =>
      have hcount : (VOp.add x :: rest).countP (fun o => o.isAnalyze) =
          rest.countP (fun o => o.isAnalyze) := by
        simp [List.countP_cons, VOp.isAnalyze]
      rw [hcount] at h1
      exact ih (v.add_sample x) h1 h2
    | analyze =>
      have hcount : (VOp.analyze :: rest).countP (fun o => (VOp.isAnalyze o)) =
          rest.countP (fun o => o.isAnalyze) + 1 := by
        simp [List.countP_cons, VOp.isAnalyze]
      rw [hcount] at h1
      rcases analyze_peak_hold_cases P v hb with ⟨hpk, hhd⟩ | ⟨hpk, hhd⟩ |
        ⟨hpos, hpk, hhd⟩ | ⟨h0, hhd⟩
      · refine le_trans (le_of_eq hpk.symm) (ih (v.analyze P) ?_ ?_)
        · rw [hhd]; omega
        · rw [hhd]; exact h2
      · refine le_trans hpk (ih (v.analyze P) ?_ ?_)
        · rw [hhd]; omega
        · rw [hhd]
      · refine le_trans (le_of_eq hpk.symm) (ih (v.analyze P) ?_ ?_)
        · rw [hhd]; omega
        · rw [hhd]; omega
      · rw [h0] at h1; omega

/-- C5: (hold) after an analyze() call in which a band's smoothed magnitude
exceeded its stored peak (so the hold counter was reset to 30), the band's
peak does not decrease across any further operation sequence containing at
most 30 analyze() calls, whatever samples arrive (even all-zero); (decay)
in an update whose hold counter is already 0 and whose new smoothed magnitude
does not exceed the stored peak, the new peak is exactly
max(old peak - 0.01, new smoothed magnitude) — it decays by 0.01 but never
below the current smoothed value. -/
theorem c5_peak_hold_and_decay (P : Prims α) (v : AudioVisualizer α) (b : ℕ)
    (hb : b < SPECTRUM_BANDS) :
    (v.peak_hold_frames.getD b 0 = 30 →
      ∀ ops : List (VOp α), ops.countP (fun o => o.isAnalyze) ≤ 30 →
        v.peak_levels.getD b 0 ≤ (runVOpsFrom P v ops).peak_levels.getD b 0) ∧
    (∀ ns : List α, v.peak_hold_frames.getD b 0 = 0 →
      (updateSpectrumPeaks v ns).spectrum_data.getD b 0 ≤ v.peak_levels.getD b 0 →
      (updateSpectrumPeaks v ns).peak_levels.getD b 0 =
        max (v.peak_levels.getD b 0 - 1/100)
          ((updateSpectrumPeaks v ns).spectrum_data.getD b 0)) := by
  constructor
  · intro h30 ops hops
    exact peak_not_below_while_held P b hb ops v (by rw [h30]; exact hops) (by rw [h30])
  · intro ns h0 hle
    obtain ⟨hs, hp, hh⟩ := updateSpectrumPeaks_getD v ns hb
    rw [hp, if_neg (not_lt.mpr hle), if_neg (by rw [h0]; exact lt_irrefl 0)]

/-- C5 witness: the hold part on a freshly held state (one analyze call), and
the decay part on a state with expired hold, peaks at 1 and an all-zero new
spectrum. -/
theorem c5_witness :
    (vHold30.peak_levels.getD 0 0 ≤
        (runVOpsFrom prims0 vHold30 [VOp.analyze]).peak_levels.getD 0 0) ∧
    ((updateSpectrumPeaks vHold0 (List.replicate 64 0)).peak_levels.getD 0 0 =
      max (vHold0.peak_levels.getD 0 0 - 1/100)
        ((updateSpectrumPeaks vHold0 (List.replicate 64 0)).spectrum_data.getD 0 0)) := by
  constructor
  · exact (c5_peak_hold_and_decay prims0 vHold30 0 (by norm_num [SPECTRUM_BANDS])).1
      (by rw [show vHold30.peak_hold_frames = List.replicate 64 30 from rfl]
          exact getD_replicate _ _ (by norm_num))
      [VOp.analyze] (by simp [List.countP_cons, VOp.isAnalyze])
  · refine (c5_peak_hold_and_decay prims0 vHold0 0 (by norm_num [SPECTRUM_BANDS])).2
      (List.replicate 64 0)
      (by rw [show vHold0.peak_hold_frames = List.replicate 64 0 from rfl]
          exact getD_replicate _ _ (by norm_num)) ?_
    rw [(updateSpectrumPeaks_getD vHold0 (List.replicate 64 0)
      (by norm_num [SPECTRUM_BANDS])).1]
    rw [show vHold0.spectrum_data = List.replicate 64 0 from rfl,
      show vHold0.peak_levels = List.replicate 64 (1:ℚ) from rfl,
      getD_replicate _ _ (by norm_num : (0:ℕ) < 64),
      getD_replicate _ _ (by norm_num : (0:ℕ) < 64)]
    norm_num

/-- Nonnegativity is preserved by updateSpectrumPeaks when the incoming band
maxima are nonnegative. -/
theorem updSpectrumPeaks_nonneg (v : AudioVisualizer α) (ns : List α)
    (hns : ∀ j, 0 ≤ ns.getD j 0)
    (h1 : ∀ j, 0 ≤ v.spectrum_data.getD j 0) (h2 : ∀ j, 0 ≤ v.peak_levels.getD j 0) :
    (∀ j, 0 ≤ (updateSpectrumPeaks v ns).spectrum_data.getD j 0) ∧
      (∀ j, 0 ≤ (updateSpectrumPeaks v ns).peak_levels.getD j 0) := by
  have hspec : ∀ j, 0 ≤ (updateSpectrumPeaks v ns).spectrum_data.getD j 0 := by
    intro j
    rcases lt_or_ge j SPECTRUM_BANDS with hj | hj
    · rw [(updateSpectrumPeaks_getD v ns hj).1]
      exact add_nonneg (mul_nonneg (h1 j) (by norm_num)) (mul_nonneg (hns j) (by norm_num))
    · rw [(updateSpectrumPeaks_getD_ge v ns hj).1]
  refine ⟨hspec, ?_⟩
  intro j
  rcases lt_or_ge j SPECTRUM_BANDS with hj | hj
  · rw [(updateSpectrumPeaks_getD v ns hj).2.1]
    split_ifs with ha hb2
    · exact hspec j
    · exact h2 j
    · exact le_trans (hspec j) (le_max_right _ _)
  · rw [(updateSpectrumPeaks_getD_ge v ns hj).2]

/-- One analyze() call preserves nonnegativity of the stored spectrum and
peak values. -/
theorem analyze_nonneg_step (P : Prims α) (v : AudioVisualizer α)
    (h1 : ∀ j, 0 ≤ v.spectrum_data.getD j 0) (h2 : ∀ j, 0 ≤ v.peak_levels.getD j 0) :
    (∀ j, 0 ≤ (v.analyze P).spectrum_data.getD j 0) ∧
      (∀ j, 0 ≤ (v.analyze P).peak_levels.getD j 0) := by
  unfold AudioVisualizer.analyze
  split_ifs with hg
  · exact ⟨h1, h2⟩
  · exact updSpectrumPeaks_nonneg v _
      (fun j => newSpectrum_getD_nonneg _ _ _ _ j) h1 h2

/-- Any operation sequence preserves nonnegativity of the stored spectrum and
peak values. -/
theorem runVOps_nonneg_aux (P : Prims α) :
    ∀ (ops : List (VOp α)) (v : AudioVisualizer α),
      (∀ j, 0 ≤ v.spectrum_data.getD j 0) → (∀ j, 0 ≤ v.peak_levels.getD j 0) →
      (∀ j, 0 ≤ (runVOpsFrom P v ops).spectrum_data.getD j 0) ∧
        (∀ j, 0 ≤ (runVOpsFrom P v ops).peak_levels.getD j 0) := by
  intro ops
  induction ops with
  | nil => intro v h1 h2; exact ⟨h1, h2⟩
  | cons op rest ih =>
    intro v h1 h2
    cases op with
    | add x => exact ih (v.add_sample x) h1 h2
    | analyze =>
      obtain ⟨h1a, h2a⟩ := analyze_nonneg_step P v h1 h2
      exact ih (v.analyze P) h1a h2a

/-- C3 (amended): for every sequence of add_sample and analyze calls starting
from AudioVisualizer::new, every value stored in spectrum_data and in
peak_levels is nonnegative. (The spec's upper bound of 1 does not hold — see
the counterexample — because no final clamp to [0,1] is applied.) -/
theorem c3_values_nonneg (P : Prims α) (sr : ℕ) (ops : List (VOp α)) :
    (∀ x ∈ (runVOps P sr ops).spectrum_data, 0 ≤ x) ∧
      (∀ x ∈ (runVOps P sr ops).peak_levels, 0 ≤ x) := by
  have hinit : ∀ j, 0 ≤ (AudioVisualizer.new (α := α) sr).spectrum_data.getD j 0 := by
    intro j
    rcases lt_or_ge j SPECTRUM_BANDS with hj | hj
    · rw [show (AudioVisualizer.new (α := α) sr).spectrum_data =
          List.replicate SPECTRUM_BANDS 0 from rfl, getD_replicate _ _ hj]
    · rw [show (AudioVisualizer.new (α := α) sr).spectrum_data =
          List.replicate SPECTRUM_BANDS 0 from rfl]
      have hnone : (List.replicate SPECTRUM_BANDS (0:α))[j]? = none := by
        apply List.getElem?_eq_none
        simpa [List.length_replicate] using hj
      simp [List.getD_eq_getElem?_getD, hnone]
  have hinit2 : ∀ j, 0 ≤ (AudioVisualizer.new (α := α) sr).peak_levels.getD j 0 := hinit
  obtain ⟨hA, hB⟩ := runVOps_nonneg_aux P ops (AudioVisualizer.new sr) hinit hinit2
  have hA' : ∀ j, 0 ≤ (runVOps P sr ops).spectrum_data.getD j 0 := hA
  have hB' : ∀ j, 0 ≤ (runVOps P sr ops).peak_levels.getD j 0 := hB
  constructor <;> intro x hx <;>
    obtain ⟨i, hilen, rfl⟩ := List.mem_iff_getElem.mp hx
  · have h := hA' i
    rwa [List.getD_eq_getElem?_getD, List.getElem?_eq_getElem hilen,
      Option.getD_some] at h
  · have h := hB' i
    rwa [List.getD_eq_getElem?_getD, List.getElem?_eq_getElem hilen,
      Option.getD_some] at h

/-- C3 nonnegativity witness: the empty operation sequence and the initial
zero entries. -/
theorem c3_nonneg_witness : (0:ℚ) ≤ 0 :=
  (c3_values_nonneg prims0 44100 []).1 0
    (by rw [show (runVOps prims0 44100 []).spectrum_data =
          List.replicate 64 0 from rfl]
        exact List.mem_replicate.mpr ⟨by norm_num, rfl⟩)

/-- C4 counterexample: the code clamps log10(magnitude) at -80 before
multiplying by 20 (`20.0 * magnitude.log10().max(-80.0)`), while the claim
clamps the full decibel value (`db = max(20·log10 m, -80)`). At magnitude
10^(-5) the value fed into the band maximum by analyze() (normalizedOf) is
(20·(-5) + 80)/80 = -1/4, whereas the claim's formula (normalizedSpecOf)
yields (max(-100, -80) + 80)/80 = 0. -/
theorem c4_clamp_mismatch :
    normalizedOf
        ({ pi := Real.pi, cos := Real.cos, sin := Real.sin, sqrt := Real.sqrt,
           log10 := Real.logb 10, pow10 := fun x => (10:ℝ) ^ x } : Prims ℝ)
        ((10:ℝ) ^ (-5:ℝ)) = -(1/4) ∧
    normalizedSpecOf
        ({ pi := Real.pi, cos := Real.cos, sin := Real.sin, sqrt := Real.sqrt,
           log10 := Real.logb 10, pow10 := fun x => (10:ℝ) ^ x } : Prims ℝ)
        ((10:ℝ) ^ (-5:ℝ)) = 0 := by
  have hm : (0:ℝ) < (10:ℝ) ^ (-5:ℝ) := Real.rpow_pos_of_pos (by norm_num) _
  have hlog : Real.logb 10 ((10:ℝ) ^ (-5:ℝ)) = -5 :=
    Real.logb_rpow (by norm_num) (by norm_num)
  constructor
  · rw [normalizedOf, dbOf, if_neg (ne_of_gt hm)]
    simp only [hlog]
    rw [show max (-5:ℝ) (-80) = -5 by norm_num]
    norm_num
  · rw [normalizedSpecOf, if_neg (ne_of_gt hm)]
    simp only [hlog]
    rw [show max ((20:ℝ) * (-5)) (-80) = -80 by norm_num]
    norm_num

/-- C4 (amended): the per-bin normalized value is (db + 80)/80 with
db = 20·max(log10 m, -80) — the clamp sits inside the factor of 20 — and this
coincides with the claimed db = max(20·log10 m, -80) exactly when the bin
magnitude is at least 10^(-4) (where neither clamp is active). -/
theorem c4_normalized_agrees_above_threshold (m : ℝ) (hm : 1/10000 ≤ m) :
    normalizedOf
        ({ pi := Real.pi, cos := Real.cos, sin := Real.sin, sqrt := Real.sqrt,
           log10 := Real.logb 10, pow10 := fun x => (10:ℝ) ^ x } : Prims ℝ) m =
      normalizedSpecOf
        ({ pi := Real.pi, cos := Real.cos, sin := Real.sin, sqrt := Real.sqrt,
           log10 := Real.logb 10, pow10 := fun x => (10:ℝ) ^ x } : Prims ℝ) m := by
  have hmpos : (0:ℝ) < m := lt_of_lt_of_le (by norm_num) hm
  have hr : (10:ℝ) ^ ((-4:ℤ) : ℝ) = 1/10000 := by
    rw [Real.rpow_intCast]
    norm_num
  have hlog : (-4:ℝ) ≤ Real.logb 10 m := by
    rw [show (-4:ℝ) = ((-4:ℤ) : ℝ) by norm_num]
    rw [Real.le_logb_iff_rpow_le (by norm_num) hmpos, hr]
    exact hm
  rw [normalizedOf, dbOf, if_neg (ne_of_gt hmpos), normalizedSpecOf,
    if_neg (ne_of_gt hmpos)]
  rw [show max (Real.logb 10 m) (-80) = Real.logb 10 m from
      max_eq_left (by linarith),
    show max ((20:ℝ) * Real.logb 10 m) (-80) = 20 * Real.logb 10 m from
      max_eq_left (by linarith)]

/-- C4 witness: the agreement instantiated at magnitude 1. -/
theorem c4_witness :
    normalizedOf
        ({ pi := Real.pi, cos := Real.cos, sin := Real.sin, sqrt := Real.sqrt,
           log10 := Real.logb 10, pow10 := fun x => (10:ℝ) ^ x } : Prims ℝ) 1 =
      normalizedSpecOf
        ({ pi := Real.pi, cos := Real.cos, sin := Real.sin, sqrt := Real.sqrt,
           log10 := Real.logb 10, pow10 := fun x => (10:ℝ) ^ x } : Prims ℝ) 1 :=
  c4_normalized_agrees_above_threshold 1 (by norm_num)

/-- Feeding n ≤ 4096 samples of a constant value into a fresh AudioVisualizer
yields a buffer of n copies of that value with all spectrum / peak state still
zero and the dirty flag set (the waveform contents are irrelevant here). -/
theorem c3_fill (P : Prims α) (c : α) :
    ∀ n : ℕ, n ≤ 4096 →
      ∃ w, runVOpsFrom P (AudioVisualizer.new 44100) (List.replicate n (VOp.add c)) =
        { sample_buffer := List.replicate n c, spectrum_data := List.replicate 64 0,
          waveform_data := w, peak_levels := List.replicate 64 0, sample_rate := 44100,
          update_needed := true, peak_hold_frames := List.replicate 64 0 } := by
  intro n
  induction n with
  | zero => intro _; exact ⟨List.replicate 1024 0, rfl⟩
  | succ n ih =>
    intro hn
    obtain ⟨w, hw⟩ := ih (by omega)
    have happ : runVOpsFrom P (AudioVisualizer.new 44100)
        (List.replicate (n + 1) (VOp.add c)) =
        VOp.run P (runVOpsFrom P (AudioVisualizer.new 44100)
          (List.replicate n (VOp.add c))) (VOp.add c) := by
      rw [List.replicate_succ']
      unfold runVOpsFrom
      rw [List.foldl_append]
      rfl
    rw [happ, hw]
    simp only [VOp.run, AudioVisualizer.add_sample, List.length_replicate]
    rw [if_neg (by rw [SPECTRUM_BUFFER_SIZE]; omega)]
    rw [show List.replicate n c ++ [c] = List.replicate (n + 1) c from
      (List.replicate_succ' n c).symm]
    exact ⟨_, rfl⟩

/-- The Hann window sum over a full 4096-sample window is at least 1: every
term is nonnegative and the middle term (index 2048, where the cosine is -1)
equals 1. Stated for primitives that agree with the real cosine and π. -/
theorem hann_sum_ge_one (P : Prims ℝ) (hpi : P.pi = Real.pi) (hcos : P.cos = Real.cos) :
    1 ≤ ∑ j in Finset.range 4096, hannWindow P j := by
  have hnonneg : ∀ j ∈ Finset.range 4096, 0 ≤ hannWindow P j := by
    intro j _
    rw [hannWindow, hcos]
    have := Real.cos_le_one (2 * P.pi * (j : ℝ) / (SPECTRUM_BUFFER_SIZE : ℝ))
    nlinarith [this]
  have hmem : (2048 : ℕ) ∈ Finset.range 4096 := by
    simp
  have hmid : hannWindow P 2048 = 1 := by
    rw [hannWindow, hpi, hcos]
    have harg : 2 * Real.pi * ((2048:ℕ) : ℝ) / (SPECTRUM_BUFFER_SIZE : ℝ) = Real.pi := by
      rw [SPECTRUM_BUFFER_SIZE]
      push_cast
      ring
    rw [harg, Real.cos_pi]
    norm_num
  calc (1:ℝ) = hannWindow P 2048 := hmid.symm
    _ ≤ ∑ j in Finset.range 4096, hannWindow P j := Finset.single_le_sum hnonneg hmem

/-- Bin 0 of the DFT of a real input: the cosine factors are cos 0 = 1 and the
sine factors are sin 0 = 0, so the real part is the plain sum of the input and
the imaginary part vanishes. -/
theorem dft_bin0 (P : Prims ℝ) (hcos : P.cos = Real.cos) (hsin : P.sin = Real.sin)
    (input : ℕ → ℝ) :
    dftRe P input 0 = (∑ j in Finset.range SPECTRUM_BUFFER_SIZE, input j) ∧
      dftIm P input 0 = 0 := by
  constructor
  · rw [dftRe]
    apply Finset.sum_congr rfl
    intro j _
    rw [Nat.mul_zero]
    norm_num [hcos, Real.cos_zero]
  · rw [dftIm]
    apply Finset.sum_eq_zero
    intro j _
    rw [Nat.mul_zero]
    norm_num [hsin, Real.sin_zero]

/-- Band 0 of newSpectrum is at least the normalized value of bin 0: bin 0 has
frequency 0, which maps to band 0, and the per-band maximum never decreases
afterwards. -/
theorem newSpectrum_getD0_ge (P : Prims ℝ) (ny : ℝ) (re im : ℕ → ℝ) :
    normalizedOf P (P.sqrt (re 0 * re 0 + im 0 * im 0)) ≤
      (newSpectrum P ny re im).getD 0 0 := by
  rw [newSpectrum]
  rw [show SPECTRUM_BUFFER_SIZE / 2 = 2047 + 1 from by rw [SPECTRUM_BUFFER_SIZE]]
  rw [List.range_succ_eq_map, List.foldl_cons]
  refine le_trans ?_ (newSpectrum_getD_mono P ny re im 0 (List.map Nat.succ (List.range 2047)) _)
  have hband : bandIndexOf P ny (((0:ℕ) : ℝ) * (ny / ((SPECTRUM_BUFFER_SIZE : ℝ) / 2))) = 0 := by
    rw [show (((0:ℕ) : ℝ) * (ny / ((SPECTRUM_BUFFER_SIZE : ℝ) / 2))) = 0 from by push_cast; ring]
    rw [bandIndexOf, if_neg (lt_irrefl 0)]
  simp only
  rw [hband]
  rw [if_pos (by rw [SPECTRUM_BANDS]; omega : (0:ℕ) < SPECTRUM_BANDS)]
  have hset : ((List.replicate SPECTRUM_BANDS (0:ℝ)).set 0
      (max ((List.replicate SPECTRUM_BANDS (0:ℝ)).getD 0 0)
        (normalizedOf P (P.sqrt (re 0 * re 0 + im 0 * im 0))))).getD 0 0 =
      max ((List.replicate SPECTRUM_BANDS (0:ℝ)).getD 0 0)
        (normalizedOf P (P.sqrt (re 0 * re 0 + im 0 * im 0))) := by
    rw [List.getD_eq_getElem?_getD,
      List.getElem?_set_self (by rw [List.length_replicate, SPECTRUM_BANDS]; omega),
      Option.getD_some]
  rw [hset]
  exact le_max_right _ _

/-- With a full window of constant samples c ≥ 10^6, band 0 of newSpectrum is
at least 5/2: bin 0 carries the windowed sum c·Σ hann ≥ 10^6, whose decibel
value is at least 120, normalizing to at least 2.5. -/
theorem ns0_ge (P : Prims ℝ) (hpi : P.pi = Real.pi) (hcos : P.cos = Real.cos)
    (hsin : P.sin = Real.sin) (hsqrt : P.sqrt = Real.sqrt)
    (hlog : P.log10 = Real.logb 10) (ny c : ℝ) (hc : 1000000 ≤ c) :
    (5:ℝ)/2 ≤ (newSpectrum P ny
      (dftRe P (fun j => (List.replicate 4096 c).getD j 0 * hannWindow P j))
      (dftIm P (fun j => (List.replicate 4096 c).getD j 0 * hannWindow P j))).getD 0 0 := by
  have hbuf : SPECTRUM_BUFFER_SIZE = 4096 := rfl
  obtain ⟨hre, him⟩ := dft_bin0 P hcos hsin
    (fun j => (List.replicate 4096 c).getD j 0 * hannWindow P j)
  have hre0 : dftRe P (fun j => (List.replicate 4096 c).getD j 0 * hannWindow P j) 0 =
      c * ∑ j in Finset.range 4096, hannWindow P j := by
    rw [hre, hbuf, Finset.mul_sum]
    apply Finset.sum_congr rfl
    intro j hj
    rw [getD_replicate c 0 (Finset.mem_range.mp hj)]
  have hS : 1 ≤ ∑ j in Finset.range 4096, hannWindow P j := hann_sum_ge_one P hpi hcos
  have hre0_ge : 1000000 ≤
      dftRe P (fun j => (List.replicate 4096 c).getD j 0 * hannWindow P j) 0 := by
    rw [hre0]
    have hcpos : (0:ℝ) ≤ c := by linarith
    nlinarith [mul_le_mul_of_nonneg_left hS hcpos]
  set r := dftRe P (fun j => (List.replicate 4096 c).getD j 0 * hannWindow P j) 0 with hr
  have hrpos : (0:ℝ) < r := lt_of_lt_of_le (by norm_num) hre0_ge
  have hmag : P.sqrt (r * r +
      dftIm P (fun j => (List.replicate 4096 c).getD j 0 * hannWindow P j) 0 *
      dftIm P (fun j => (List.replicate 4096 c).getD j 0 * hannWindow P j) 0) = r := by
    rw [him, hsqrt, show r * r + 0 * 0 = r ^ 2 from by ring]
    exact Real.sqrt_sq (le_of_lt hrpos)
  refine le_trans ?_ (newSpectrum_getD0_ge P ny _ _)
  rw [hmag, normalizedOf, dbOf, if_neg (ne_of_gt hrpos), hlog]
  have h6 : (6:ℝ) ≤ Real.logb 10 r := by
    rw [Real.le_logb_iff_rpow_le (by norm_num) hrpos]
    rw [show (6:ℝ) = ((6:ℕ) : ℝ) from by norm_num, Real.rpow_natCast]
    norm_num
    exact hre0_ge
  have hmax : (6:ℝ) ≤ max (Real.logb 10 r) (-80) := le_trans h6 (le_max_left _ _)
  linarith

/-- When the dirty flag is set and the window is full, analyze() runs: its
spectrum is the updateSpectrumPeaks blend against the freshly computed band
maxima, the sample buffer and sample rate are untouched, and the dirty flag is
cleared. -/
theorem analyze_run_eq (P : Prims α) (v : AudioVisualizer α)
    (hdirty : v.update_needed = true) (hfull : v.sample_buffer.length = 4096) :
    (v.analyze P).spectrum_data =
      (updateSpectrumPeaks v (newSpectrum P ((v.sample_rate : α) / 2)
        (dftRe P (fun j => v.sample_buffer.getD j 0 * hannWindow P j))
        (dftIm P (fun j => v.sample_buffer.getD j 0 * hannWindow P j)))).spectrum_data ∧
      (v.analyze P).sample_buffer = v.sample_buffer ∧
      (v.analyze P).sample_rate = v.sample_rate ∧
      (v.analyze P).update_needed = false := by
  have hguard : ¬ (¬ v.update_needed ∨ v.sample_buffer.length < SPECTRUM_BUFFER_SIZE) := by
    rw [hdirty, hfull]
    simp [SPECTRUM_BUFFER_SIZE]
  unfold AudioVisualizer.analyze
  rw [if_neg hguard]
  exact ⟨rfl, rfl, rfl, rfl⟩

/-- One analyze() call on a state whose window is full of a constant sample
c ≥ 10^6 raises band 0 of the displayed spectrum to at least 70% of its old
value plus 3/4, while preserving the buffer and sample rate. -/
theorem c3_analyze_step (P : Prims ℝ) (hpi : P.pi = Real.pi) (hcos : P.cos = Real.cos)
    (hsin : P.sin = Real.sin) (hsqrt : P.sqrt = Real.sqrt)
    (hlog : P.log10 = Real.logb 10) (c : ℝ) (hc : 1000000 ≤ c)
    (v : AudioVisualizer ℝ) (hbuf : v.sample_buffer = List.replicate 4096 c)
    (hdirty : v.update_needed = true) (hsr : v.sample_rate = 44100) :
    v.spectrum_data.getD 0 0 * (7/10) + 3/4 ≤ (v.analyze P).spectrum_data.getD 0 0 ∧
      (v.analyze P).sample_buffer = List.replicate 4096 c ∧
      (v.analyze P).sample_rate = 44100 := by
  obtain ⟨hspec_eq, hbuf', hsr', _⟩ := analyze_run_eq P v hdirty
    (by rw [hbuf, List.length_replicate])
  refine ⟨?_, by rw [hbuf', hbuf], by rw [hsr', hsr]⟩
  rw [hspec_eq,
    (updateSpectrumPeaks_getD v _ (by rw [SPECTRUM_BANDS]; omega : (0:ℕ) < SPECTRUM_BANDS)).1]
  have hns : (5:ℝ)/2 ≤ (newSpectrum P ((v.sample_rate : ℝ) / 2)
      (dftRe P (fun j => v.sample_buffer.getD j 0 * hannWindow P j))
      (dftIm P (fun j => v.sample_buffer.getD j 0 * hannWindow P j))).getD 0 0 := by
    rw [hbuf, hsr]
    exact ns0_ge P hpi hcos hsin hsqrt hlog _ c hc
  linarith

/-- add_sample marks the analyzer dirty and leaves the spectrum, peak and
sample-rate state untouched. -/
theorem add_sample_fields (v : AudioVisualizer α) (x : α) :
    (v.add_sample x).update_needed = true ∧
      (v.add_sample x).sample_rate = v.sample_rate ∧
      (v.add_sample x).spectrum_data = v.spectrum_data ∧
      (v.add_sample x).peak_levels = v.peak_levels :=
  ⟨rfl, rfl, rfl, rfl⟩

/-- C3 counterexample: the values stored in spectrum_data are not bounded by 1.
Feeding 4096 samples of value 10^6 into a fresh AudioVisualizer, analyzing,
adding one more such sample (the window stays full of the same value and the
analyzer is dirty again) and analyzing a second time leaves band 0 of
spectrum_data strictly above 1 — analyze() never clamps the stored magnitudes
to [0,1]. Stated over the real-analytic primitives. -/
theorem c3_value_exceeds_one :
    1 < (runVOps
        ({ pi := Real.pi, cos := Real.cos, sin := Real.sin, sqrt := Real.sqrt,
           log10 := Real.logb 10, pow10 := fun x => (10:ℝ) ^ x } : Prims ℝ)
        44100 c3ops).spectrum_data.getD 0 0 := by
  set P := ({ pi := Real.pi, cos := Real.cos, sin := Real.sin, sqrt := Real.sqrt,
              log10 := Real.logb 10, pow10 := fun x => (10:ℝ) ^ x } : Prims ℝ) with hP
  have hpi : P.pi = Real.pi := rfl
  have hcos : P.cos = Real.cos := rfl
  have hsin : P.sin = Real.sin := rfl
  have hsqrt : P.sqrt = Real.sqrt := rfl
  have hlog : P.log10 = Real.logb 10 := rfl
  have hsplit : runVOps P 44100 c3ops =
      ((((runVOpsFrom P (AudioVisualizer.new 44100)
        (List.replicate 4096 (VOp.add 1000000))).analyze P).add_sample 1000000).analyze P) := by
    simp only [c3ops, runVOps, runVOpsFrom]
    rw [List.foldl_append, List.foldl_cons, List.foldl_cons, List.foldl_cons, List.foldl_nil]
    rfl
  obtain ⟨w, hw⟩ := c3_fill P (1000000:ℝ) 4096 (le_refl _)
  set v1 := runVOpsFrom P (AudioVisualizer.new 44100)
    (List.replicate 4096 (VOp.add (1000000:ℝ))) with hv1
  obtain ⟨hs1, hb1, hr1⟩ := c3_analyze_step P hpi hcos hsin hsqrt hlog 1000000
    (le_refl _) v1 (by rw [hw]) (by rw [hw]) (by rw [hw])
  have hv1s : v1.spectrum_data.getD 0 0 = 0 := by
    rw [hw]
    exact getD_replicate _ _ (by norm_num)
  have hb2 : ((v1.analyze P).add_sample 1000000).sample_buffer =
      List.replicate 4096 (1000000:ℝ) := by
    simp only [AudioVisualizer.add_sample]
    rw [hb1, List.length_replicate]
    rw [if_pos (by rw [SPECTRUM_BUFFER_SIZE] : SPECTRUM_BUFFER_SIZE ≤ 4096)]
    rw [List.tail_replicate]
    exact (List.replicate_succ' 4095 (1000000:ℝ)).symm
  have hd2 : ((v1.analyze P).add_sample 1000000).update_needed = true :=
    (add_sample_fields _ _).1
  have hr2 : ((v1.analyze P).add_sample 1000000).sample_rate = 44100 := by
    rw [(add_sample_fields (v1.analyze P) 1000000).2.1, hr1]
  obtain ⟨hs2, _, _⟩ := c3_analyze_step P hpi hcos hsin hsqrt hlog 1000000
    (le_refl _) ((v1.analyze P).add_sample 1000000) hb2 hd2 hr2
  have hspec2 : ((v1.analyze P).add_sample 1000000).spectrum_data.getD 0 0 =
      (v1.analyze P).spectrum_data.getD 0 0 := by
    rw [(add_sample_fields (v1.analyze P) 1000000).2.2.1]
  rw [hsplit]
  rw [hv1s] at hs1
  rw [hspec2] at hs2
  linarith
